import Mathlib

/-!
# Verification of the MagnaChain `AbstractBlock` header entity

A shallow embedding of `src/lib/primitives/abstractblock.js` — the block
header entity of the Mgc-Coin node — together with models of the leaf
collaborators it consumes (binary codec, hash engine, proof-of-work
checker), and proofs of the specified properties.

Modelling conventions:

* JS numbers holding unsigned 32-bit header fields are `Nat`; the signed
  32-bit `outpointn` is `Int`.  The buffer writer raises a `RangeError` for
  a value outside its field's range; all claims below constrain fields to
  their ranges (`WFBlock`), where that behaviour never fires, and the model
  truncates for totality.
* Hash-valued fields are 32-byte hex strings in memory.  We identify a hex
  string with the byte sequence it denotes (a `List Nat` of values < 256):
  `writeHash` emits those bytes, and `readHash('hex')` yields the hex form
  of the 32 bytes it reads, i.e. the same byte sequence under this
  identification.  Likewise `blocksig`, a binary-encoded string, is
  identified with its bytes.
* Fallible operations return `Except JsError _`; a thrown JS error is an
  `Except.error`.  Methods that mutate `this` take and return the entity
  state explicitly.
-/

/-- The JS error values the embedded code can raise: `assert(cond, msg?)`
failures (the message is the optional literal passed to `assert`),
reference errors for unbound identifiers, explicitly `throw`n errors, and
decode errors from the buffer reader. -/
inductive JsError where
  | assertionError : Option String → JsError
  | referenceError : String → JsError
  | thrown : String → JsError
  | encodingError : String → JsError
deriving DecidableEq, Repr


/-- Decidable equality for `Except` results, so that witnesses can be
checked by evaluation. -/
instance {ε α : Type} [DecidableEq ε] [DecidableEq α] :
    DecidableEq (Except ε α) := fun x y =>
  match x, y with
  | .error a, .error b =>
      if h : a = b then isTrue (by rw [h]) else isFalse (by simp [h])
  | .ok a, .ok b =>
      if h : a = b then isTrue (by rw [h]) else isFalse (by simp [h])
  | .error _, .ok _ => isFalse (by simp)
  | .ok _, .error _ => isFalse (by simp)

/-! ## Little-endian byte encodings (leaf helpers of the codec model) -/

/-- The `k` little-endian bytes of `n` (truncating to `n % 2^(8*k)`). -/
def leBytes : Nat → Nat → List Nat
  | 0, _ => []
  | k + 1, n => (n % 256) :: leBytes k (n / 256)

/-- Read a little-endian byte list as the `Nat` it denotes. -/
def leNat : List Nat → Nat
  | [] => 0
  | b :: bs => b + 256 * leNat bs

def u16Bytes (n : Nat) : List Nat := leBytes 2 n

def u32Bytes (n : Nat) : List Nat := leBytes 4 n

def u64Bytes (n : Nat) : List Nat := leBytes 8 n

/-- Two's-complement little-endian encoding of a signed 32-bit write. -/
def i32Bytes (i : Int) : List Nat := u32Bytes (i % (2 ^ 32 : Int)).toNat

/-- The Bitcoin-style variable-length integer encoding used by the codec's
`writeVarint`: values below `0xfd` in one byte, else a marker byte
(`0xfd`/`0xfe`/`0xff`) followed by a little-endian 16/32/64-bit payload. -/
def varintBytes (n : Nat) : List Nat :=
  if n < 0xfd then [n]
  else if n ≤ 0xffff then 0xfd :: u16Bytes n
  else if n ≤ 0xffffffff then 0xfe :: u32Bytes n
  else 0xff :: u64Bytes n

/-- Lowercase hex digit character code for a nibble. -/
def hexDigit (n : Nat) : Nat := if n < 10 then 48 + n else 87 + n

/-- The character codes of the lowercase hex rendering of a byte sequence
(the JS `buffer.toString('hex')` used for the cached hex hash). -/
def hexOf (bytes : List Nat) : List Nat :=
  (bytes.map (fun b => [hexDigit (b / 16), hexDigit (b % 16)])).flatten

/-! ## Hash engine

Modelled from the spec: `crypto/digest.js` is not under `src/`; §4.2 states
`hash256(bytes)` applies a standard cryptographic hash function twice in
succession, producing a 32-byte digest.  We model it as double SHA-256,
implemented below over byte lists. -/

/-- Truncate to an unsigned 32-bit word. -/
def w32 (n : Nat) : Nat := n % 2 ^ 32

/-- 32-bit right rotation. -/
def rotr32 (x n : Nat) : Nat := w32 ((x >>> n) ||| (x <<< (32 - n)))

/-- SHA-256 round constants (FIPS 180-4, in decimal). -/
def sha256K : List Nat :=
  [1116352408, 1899447441, 3049323471, 3921009573,
   961987163, 1508970993, 2453635748, 2870763221,
   3624381080, 310598401, 607225278, 1426881987,
   1925078388, 2162078206, 2614888103, 3248222580,
   3835390401, 4022224774, 264347078, 604807628,
   770255983, 1249150122, 1555081692, 1996064986,
   2554220882, 2821834349, 2952996808, 3210313671,
   3336571891, 3584528711, 113926993, 338241895,
   666307205, 773529912, 1294757372, 1396182291,
   1695183700, 1986661051, 2177026350, 2456956037,
   2730485921, 2820302411, 3259730800, 3345764771,
   3516065817, 3600352804, 4094571909, 275423344,
   430227734, 506948616, 659060556, 883997877,
   958139571, 1322822218, 1537002063, 1747873779,
   1955562222, 2024104815, 2227730452, 2361852424,
   2428436474, 2756734187, 3204031479, 3329325298]

/-- SHA-256 initial state (FIPS 180-4, in decimal). -/
def sha256H0 : Array Nat :=
  #[1779033703, 3144134277, 1013904242, 2773480762,
    1359893119, 2600822924, 528734635, 1541459225]

/-- Pad a message to a multiple of 64 bytes: the `0x80` byte, zeros, then
the bit length as a big-endian 64-bit integer. -/
def sha256Pad (msg : List Nat) : List Nat :=
  let len := msg.length
  let zeros := (55 + 64 - len % 64) % 64
  msg ++ [0x80] ++ List.replicate zeros 0 ++ (u64Bytes (8 * len)).reverse

/-- Group bytes into big-endian 32-bit words. -/
def beWords : List Nat → List Nat
  | b0 :: b1 :: b2 :: b3 :: rest =>
      (((b0 * 256 + b1) * 256 + b2) * 256 + b3) :: beWords rest
  | _ => []

/-- Extend the 16 words of a block to the 64-entry message schedule. -/
def sha256Schedule (block : Array Nat) : Array Nat :=
  (List.range 48).foldl
    (fun w j =>
      let i := j + 16
      let x15 := w.getD (i - 15) 0
      let x2 := w.getD (i - 2) 0
      let s0 := rotr32 x15 7 ^^^ rotr32 x15 18 ^^^ (x15 >>> 3)
      let s1 := rotr32 x2 17 ^^^ rotr32 x2 19 ^^^ (x2 >>> 10)
      w.push (w32 (w.getD (i - 16) 0 + s0 + w.getD (i - 7) 0 + s1)))
    block

/-- One SHA-256 compression round. -/
def sha256Round (w : Array Nat) (t : Array Nat) (i : Nat) : Array Nat :=
  let a := t.getD 0 0
  let b := t.getD 1 0
  let c := t.getD 2 0
  let d := t.getD 3 0
  let e := t.getD 4 0
  let f := t.getD 5 0
  let g := t.getD 6 0
  let h := t.getD 7 0
  let s1 := rotr32 e 6 ^^^ rotr32 e 11 ^^^ rotr32 e 25
  let ch := (e &&& f) ^^^ ((2 ^ 32 - 1 - e) &&& g)
  let temp1 := w32 (h + s1 + ch + sha256K.getD i 0 + w.getD i 0)
  let s0 := rotr32 a 2 ^^^ rotr32 a 13 ^^^ rotr32 a 22
  let maj := (a &&& b) ^^^ (a &&& c) ^^^ (b &&& c)
  let temp2 := w32 (s0 + maj)
  #[w32 (temp1 + temp2), a, b, c, w32 (d + temp1), e, f, g]

/-- Compress one 64-byte block (given as 16 words) into the running state. -/
def sha256Compress (st : Array Nat) (block : Array Nat) : Array Nat :=
  let w := sha256Schedule block
  let t := (List.range 64).foldl (sha256Round w) st
  (Array.range 8).map (fun i => w32 (st.getD i 0 + t.getD i 0))

/-- Split a word list into 16-word blocks. -/
def blocksOf : List Nat → List (Array Nat)
  | [] => []
  | w0 :: w1 :: w2 :: w3 :: w4 :: w5 :: w6 :: w7 ::
    w8 :: w9 :: w10 :: w11 :: w12 :: w13 :: w14 :: w15 :: rest =>
      #[w0, w1, w2, w3, w4, w5, w6, w7, w8, w9, w10, w11, w12, w13, w14, w15]
        :: blocksOf rest
  | _ => []

/-- Render a 32-bit word as big-endian bytes. -/
def beBytesOfWord (n : Nat) : List Nat := (u32Bytes n).reverse

/-- SHA-256 of a byte sequence, as 32 bytes. -/
def sha256 (msg : List Nat) : List Nat :=
  let st := (blocksOf (beWords (sha256Pad msg))).foldl sha256Compress sha256H0
  (st.toList.map beBytesOfWord).flatten

/-- Modelled from the spec: `digest.hash256` (`crypto/digest.js`, not under
`src/`) — “applying a standard cryptographic hash function twice in
succession to the input”, i.e. double SHA-256, yielding the 32-byte block
identifier. -/
def hash256 (msg : List Nat) : List Nat := sha256 (sha256 msg)

/-! ## Proof-of-work checker

Modelled from the spec: `protocol/consensus.js` is not under `src/`; §4.3
describes `verifyPOW(hash, bits)` — decode `bits` by the standard
compact-float encoding (byte exponent, 3-byte mantissa, sign bit), read the
hash as a little-endian-stored unsigned integer, and accept iff the target
is positive, non-overflowing (at most 256 bits) and the hash value is at
most the target. -/

/-- Modelled from the spec: decode a compact difficulty encoding into a
signed target — exponent in the top byte, sign in bit 23, mantissa in the
low 23 bits; exponents at most 3 shift the mantissa right, larger ones
shift left by `8 * (exponent - 3)` bits. -/
def fromCompact (compact : Nat) : Int :=
  if compact = 0 then 0
  else
    let exponent := compact >>> 24
    let negative := (compact >>> 23) % 2 = 1
    let mantissa := compact % 2 ^ 23
    let num : Int :=
      if exponent ≤ 3 then (mantissa >>> (8 * (3 - exponent)) : Nat)
      else (mantissa : Int) * ((2 ^ (8 * (exponent - 3)) : Nat) : Int)
    if negative then -num else num

/-- Modelled from the spec: `consensus.verifyPOW(hash, bits)` — reject a
non-positive or overflowing (more than 256-bit) target, else compare the
hash, read as a little-endian unsigned integer, against the target. -/
def consensusVerifyPOW (hash : List Nat) (bits : Nat) : Bool :=
  let target := fromCompact bits
  if target ≤ 0 then false
  else if (2 ^ 256 : Int) ≤ target then false
  else if (leNat hash : Int) > target then false
  else true

/-! ## Buffer writer

Modelled from the spec: `utils/writer.js` (`WriteBuffer`) is not under
`src/`; §4.1 — a writer accepts field writes in a fixed order and produces
a single contiguous byte buffer.  The JS `WriteBuffer` queues write
operations and concatenates their encodings on `render()`; we mirror that
as a queue of operations rendered to a byte list. -/

/-- One queued write operation of the buffer writer. -/
inductive WriteOp where
  | u32 : Nat → WriteOp
  | hashBytes : List Nat → WriteOp
  | i32 : Int → WriteOp
  | varint : Nat → WriteOp
  | strBinary : List Nat → WriteOp
deriving DecidableEq, Repr

/-- The buffer writer: a queue of pending write operations. -/
structure WriteBuffer where
  ops : List WriteOp := []
deriving DecidableEq, Repr

def WriteBuffer.writeU32 (bw : WriteBuffer) (n : Nat) : WriteBuffer :=
  ⟨bw.ops ++ [.u32 n]⟩

def WriteBuffer.writeHash (bw : WriteBuffer) (h : List Nat) : WriteBuffer :=
  ⟨bw.ops ++ [.hashBytes h]⟩

def WriteBuffer.write32 (bw : WriteBuffer) (i : Int) : WriteBuffer :=
  ⟨bw.ops ++ [.i32 i]⟩

def WriteBuffer.writeVarint (bw : WriteBuffer) (n : Nat) : WriteBuffer :=
  ⟨bw.ops ++ [.varint n]⟩

/-- `writeString(value, 'binary')`: the raw bytes of a binary string. -/
def WriteBuffer.writeString (bw : WriteBuffer) (s : List Nat) : WriteBuffer :=
  ⟨bw.ops ++ [.strBinary s]⟩

/-- The bytes a queued operation contributes on render. -/
def WriteOp.bytes : WriteOp → List Nat
  | .u32 n => u32Bytes n
  | .hashBytes h => h
  | .i32 i => i32Bytes i
  | .varint n => varintBytes n
  | .strBinary s => s

/-- Concatenate the queued operations into the output buffer. -/
def WriteBuffer.render (bw : WriteBuffer) : List Nat :=
  (bw.ops.map WriteOp.bytes).flatten

/-! ## Buffer reader

Modelled from the spec: `utils/reader.js` (`BufferReader`) is not under
`src/`; §4.1 — a reader consumes the same fixed field order from a byte
buffer and reports a decode error if the buffer is exhausted before all
fields are read.  We model the reader state as the list of bytes not yet
consumed; each primitive returns the decoded value and the remaining
bytes. -/

/-- Consume exactly `k` bytes, failing on buffer underrun. -/
def readBytes (k : Nat) (l : List Nat) : Except JsError (List Nat × List Nat) :=
  if k ≤ l.length then .ok (l.take k, l.drop k)
  else .error (.encodingError "Out of bounds read.")

/-- Read an unsigned little-endian integer of `k` bytes. -/
def readUInt (k : Nat) (l : List Nat) : Except JsError (Nat × List Nat) := do
  let (bs, rest) ← readBytes k l
  .ok (leNat bs, rest)

def readU16 (l : List Nat) : Except JsError (Nat × List Nat) := readUInt 2 l

def readU32 (l : List Nat) : Except JsError (Nat × List Nat) := readUInt 4 l

def readU64 (l : List Nat) : Except JsError (Nat × List Nat) := readUInt 8 l

/-- Read a signed 32-bit little-endian integer (two's complement). -/
def read32 (l : List Nat) : Except JsError (Int × List Nat) := do
  let (u, rest) ← readU32 l
  .ok (if 2 ^ 31 ≤ u then (u : Int) - 2 ^ 32 else (u : Int), rest)

/-- `readHash('hex')`: 32 bytes, identified with the hex string they
denote. -/
def readHash (l : List Nat) : Except JsError (List Nat × List Nat) :=
  readBytes 32 l

/-- Read a variable-length integer: a value below `0xfd` directly, else a
marker byte followed by a 16/32/64-bit little-endian payload. -/
def readVarint (l : List Nat) : Except JsError (Nat × List Nat) := do
  let (b, rest) ← readUInt 1 l
  if b = 0xff then readU64 rest
  else if b = 0xfe then readU32 rest
  else if b = 0xfd then readU16 rest
  else .ok (b, rest)

/-- `readString('binary', size)`: `size` raw bytes, identified with the
binary string they denote. -/
def readString (size : Nat) (l : List Nat) :
    Except JsError (List Nat × List Nat) :=
  readBytes size l

/-! ## Transactions (collaborator)

Modelled from the spec: the transaction object model is out of scope and
not under `src/`; §6 — “a transaction object exposing `refresh()`” which
clears that transaction's own caches.  We model a transaction as an opaque
payload plus one derived cache slot that `refresh()` clears. -/

structure Tx where
  payload : Nat
  cacheSlot : Option Nat
deriving DecidableEq, Repr

/-- Modelled from the spec: `tx.refresh()` clears the transaction's own
caches, leaving its payload alone. -/
def Tx.refresh (tx : Tx) : Tx := { tx with cacheSlot := none }

/-! ## The `AbstractBlock` entity (`src/lib/primitives/abstractblock.js`)

The constructor's field layout, lines 37–65: twelve header fields, the
transaction vector (absent on header-only variants), the `mutable` flag,
and the four derived cache slots `_hash`, `_hhash`, `_size`, `_witness`
(`-1` is the “empty” sentinel of the two size slots). -/

structure Block where
  version : Nat
  prevHash : List Nat
  merkleRoot : List Nat
  hashMerkleRootWithData : List Nat
  hashMerkleRootWithPrevData : List Nat
  time : Nat
  bits : Nat
  nonce : Nat
  outpointhash : List Nat
  outpointn : Int
  blocksigsize : Nat
  blocksig : List Nat
  txs : Option (List Tx)
  mutable : Bool
  _hash : Option (List Nat)
  _hhash : Option (List Nat)
  _size : Int
  _witness : Int
deriving DecidableEq, Repr

/-- `AbstractBlock.prototype._refresh` (lines 156–170): clear the four
derived cache slots; when `all` is set and `txs` is present, additionally
refresh every transaction. -/
def Block._refresh (b : Block) (all : Bool) : Block :=
  let b := { b with _hash := none, _hhash := none,
                    _size := (-1 : Int), _witness := (-1 : Int) }
  if !all then b
  else
    match b.txs with
    | none => b
    | some txs => { b with txs := some (txs.map Tx.refresh) }

/-- `AbstractBlock.prototype.refresh` (lines 177–179): delegates to
`_refresh`. -/
def Block.refresh (b : Block) (all : Bool) : Block := b._refresh all

/-- `AbstractBlock.prototype.writeAbbr` (lines 224–241): serialize the
header fields through the writer, in source order. -/
def Block.writeAbbr (b : Block) (bw : WriteBuffer) : WriteBuffer :=
  let bw := bw.writeU32 b.version
  let bw := bw.writeHash b.prevHash
  let bw := bw.writeHash b.merkleRoot
  let bw := bw.writeHash b.hashMerkleRootWithData
  let bw := bw.writeHash b.hashMerkleRootWithPrevData
  let bw := bw.writeU32 b.time
  let bw := bw.writeU32 b.bits
  let bw := bw.writeU32 b.nonce
  let bw := bw.writeHash b.outpointhash
  let bw := bw.write32 b.outpointn
  let bw := bw.writeVarint b.blocksigsize
  let bw := bw.writeString b.blocksig
  bw

/-- `AbstractBlock.prototype.abbr` (lines 214–217): render the abbreviated
serialization through a fresh `WriteBuffer`. -/
def Block.abbr (b : Block) : List Nat := (b.writeAbbr {}).render

/-- `AbstractBlock.prototype.hash` (lines 187–207): return the cached
digest if present, else compute `hash256` of the abbreviated serialization
and memoize it unless the entity is mutable; when hex encoding is
requested, derive (and likewise conditionally memoize) the hex form.
Returns the updated entity and the result (digest bytes, or hex character
codes when `hexEnc`). -/
def Block.hash (b : Block) (hexEnc : Bool) : Block × List Nat :=
  let (b1, h) :=
    match b._hash with
    | some h0 => (b, h0)
    | none =>
        let h := hash256 b.abbr
        if b.mutable then (b, h) else ({ b with _hash := some h }, h)
  if hexEnc then
    match b1._hhash with
    | some hx => (b1, hx)
    | none =>
        let hx := hexOf h
        if b1.mutable then (b1, hx) else ({ b1 with _hhash := some hx }, hx)
  else (b1, h)

/-- `AbstractBlock.prototype.parseAbbr` (lines 248–273): decode the header
fields from the reader in source order, overwriting the receiver's header
fields; `blocksig` is read with the length just decoded into
`blocksigsize`.  (The `console.log` calls in the source only write to
stdout.)  Returns the updated entity and the unconsumed bytes. -/
def Block.parseAbbr (b : Block) (l : List Nat) :
    Except JsError (Block × List Nat) := do
  let (version, l) ← readU32 l
  let (prevHash, l) ← readHash l
  let (merkleRoot, l) ← readHash l
  let (hashMerkleRootWithData, l) ← readHash l
  let (hashMerkleRootWithPrevData, l) ← readHash l
  let (time, l) ← readU32 l
  let (bits, l) ← readU32 l
  let (nonce, l) ← readU32 l
  let (outpointhash, l) ← readHash l
  let (outpointn, l) ← read32 l
  let (blocksigsize, l) ← readVarint l
  let (blocksig, l) ← readString blocksigsize l
  .ok ({ b with version, prevHash, merkleRoot, hashMerkleRootWithData,
                hashMerkleRootWithPrevData, time, bits, nonce,
                outpointhash, outpointn, blocksigsize, blocksig }, l)

/-- `AbstractBlock.prototype.verifyPOW` (lines 295–297):
`consensus.verifyPOW(this.hash(), this.bits)`.  `this.hash()` may memoize
the digest, so the method returns the updated entity alongside the
boolean. -/
def Block.verifyPOW (b : Block) : Bool × Block :=
  let (b1, h) := b.hash false
  (consensusVerifyPOW h b1.bits, b1)

/-- `AbstractBlock.prototype.verifyBody` (lines 304–306) on the abstract
base: `throw new Error('Abstract method.')` — no variant implementation. -/
def abstractVerifyBody : Block → Except JsError (Bool × Block) :=
  fun _ => .error (.thrown "Abstract method.")

/-- `AbstractBlock.prototype.verify` (lines 280–288): `verifyPOW()` first,
returning false on failure without body verification; otherwise delegate
to the (polymorphic) `verifyBody`, modelled as an explicit parameter since
each concrete variant supplies its own. -/
def Block.verify (b : Block)
    (verifyBody : Block → Except JsError (Bool × Block)) :
    Except JsError (Bool × Block) :=
  let (pow, b1) := b.verifyPOW
  if !pow then .ok (false, b1)
  else
    match verifyBody b1 with
    | .error e => .error e
    | .ok (ok, b2) => if !ok then .ok (false, b2) else .ok (true, b2)

/-! ## Construction from options / JSON (dynamically-typed view)

`parseOptions` (lines 82–113) and `parseJSON` (lines 121–149) validate and
copy raw JavaScript values, so for these two methods we model the field
values as dynamically-typed JS values and the entity as a record of such
values.  The cache slots are untouched by both methods and are omitted
from this view. -/

/-- A JavaScript value as far as these methods can observe one: the
`typeof`/finiteness checks and truthiness. `nan` and `infinite` are
numbers for `typeof` but not finite. -/
inductive JsValue where
  | undefined
  | nullv
  | num : Int → JsValue
  | nan
  | infinite
  | str : String → JsValue
  | bool : Bool → JsValue
deriving DecidableEq, Repr

/-- JS truthiness (`!!v`). -/
def JsValue.toBool : JsValue → Bool
  | .undefined => false
  | .nullv => false
  | .num n => n ≠ 0
  | .nan => false
  | .infinite => true
  | .str s => s ≠ ""
  | .bool b => b

/-- Modelled from the spec: `util.isNumber` (`utils/util.js`, not under
`src/`) — “numeric fields must be valid numbers”: a number that is
finite. -/
def isNumber : JsValue → Bool
  | .num _ => true
  | _ => false

/-- `typeof v === 'string'`. -/
def isString : JsValue → Bool
  | .str _ => true
  | _ => false

/-- Node's `assert(cond, msg?)`: throw an `AssertionError` carrying the
optional message literal when the condition fails. -/
def jsAssert (cond : Bool) (msg : Option String) : Except JsError Unit :=
  if cond then .ok () else .error (.assertionError msg)

/-- The options object handed to `parseOptions`/`parseJSON`: one dynamic
value per field (a property missing from the object reads as
`undefined`). -/
structure Options where
  version : JsValue
  prevHash : JsValue
  merkleRoot : JsValue
  hashMerkleRootWithData : JsValue
  hashMerkleRootWithPrevData : JsValue
  time : JsValue
  bits : JsValue
  nonce : JsValue
  outpointhash : JsValue
  outpointn : JsValue
  blocksigsize : JsValue
  blocksig : JsValue
  mutable : JsValue
deriving DecidableEq, Repr

/-- The entity state these two methods read and write: the twelve header
fields as dynamic values, plus the `mutable` flag. -/
structure JsBlock where
  version : JsValue
  prevHash : JsValue
  merkleRoot : JsValue
  hashMerkleRootWithData : JsValue
  hashMerkleRootWithPrevData : JsValue
  time : JsValue
  bits : JsValue
  nonce : JsValue
  outpointhash : JsValue
  outpointn : JsValue
  blocksigsize : JsValue
  blocksig : JsValue
  mutable : Bool
deriving DecidableEq, Repr

/-- Modelled from the spec: `encoding.NULL_HASH` (`utils/encoding.js`, not
under `src/`) — the all-zero 32-byte digest as a 64-character hex
string. -/
def NULL_HASH : String :=
  "0000000000000000000000000000000000000000000000000000000000000000"

/-- The field state installed by the constructor (lines 41–59), in the
dynamic view. -/
def jsInitBlock : JsBlock :=
  { version := .num 1
    prevHash := .str NULL_HASH
    merkleRoot := .str NULL_HASH
    hashMerkleRootWithData := .str NULL_HASH
    hashMerkleRootWithPrevData := .str NULL_HASH
    time := .num 0
    bits := .num 0
    nonce := .num 0
    outpointhash := .str NULL_HASH
    outpointn := .num 0
    blocksigsize := .num 0
    blocksig := .nullv
    mutable := false }

/-- `AbstractBlock.prototype.parseOptions` (lines 82–113): assert the
argument is present, assert `util.isNumber` of `version`, `time`, `bits`,
`nonce` and `typeof === 'string'` of the four hash fields (all before any
assignment), then copy all twelve fields — `outpointhash`, `outpointn`,
`blocksigsize`, `blocksig` without any check — and finally set `mutable`
from `!!options.mutable` when `options.mutable != null` (loose
inequality, excluding `null` and `undefined`). -/
def parseOptions (st : JsBlock) (optionsArg : Option Options) :
    Except JsError JsBlock :=
  match optionsArg with
  | none => .error (.assertionError (some "Block data is required."))
  | some options => do
      jsAssert (isNumber options.version) none
      jsAssert (isString options.prevHash) none
      jsAssert (isString options.merkleRoot) none
      jsAssert (isString options.hashMerkleRootWithData) none
      jsAssert (isString options.hashMerkleRootWithPrevData) none
      jsAssert (isNumber options.time) none
      jsAssert (isNumber options.bits) none
      jsAssert (isNumber options.nonce) none
      .ok { version := options.version
            prevHash := options.prevHash
            merkleRoot := options.merkleRoot
            hashMerkleRootWithData := options.hashMerkleRootWithData
            hashMerkleRootWithPrevData := options.hashMerkleRootWithPrevData
            time := options.time
            bits := options.bits
            nonce := options.nonce
            outpointhash := options.outpointhash
            outpointn := options.outpointn
            blocksigsize := options.blocksigsize
            blocksig := options.blocksig
            mutable :=
              match options.mutable with
              | .undefined => st.mutable
              | .nullv => st.mutable
              | v => v.toBool }

/-- The statement sequence of `parseJSON`'s body (lines 122–148) as it
would execute if the free identifier `options` were bound to a value: the
same assertions and field copies as `parseOptions`, without the `mutable`
clause.  (Dead in the source: the identifier is unbound, see
`parseJSON`.) -/
def parseJSONBody (st : JsBlock) (optionsVal : Option Options) :
    Except JsError JsBlock :=
  match optionsVal with
  | none => .error (.assertionError (some "Block data is required."))
  | some options => do
      jsAssert (isNumber options.version) none
      jsAssert (isString options.prevHash) none
      jsAssert (isString options.merkleRoot) none
      jsAssert (isString options.hashMerkleRootWithData) none
      jsAssert (isString options.hashMerkleRootWithPrevData) none
      jsAssert (isNumber options.time) none
      jsAssert (isNumber options.bits) none
      jsAssert (isNumber options.nonce) none
      .ok { version := options.version
            prevHash := options.prevHash
            merkleRoot := options.merkleRoot
            hashMerkleRootWithData := options.hashMerkleRootWithData
            hashMerkleRootWithPrevData := options.hashMerkleRootWithPrevData
            time := options.time
            bits := options.bits
            nonce := options.nonce
            outpointhash := options.outpointhash
            outpointn := options.outpointn
            blocksigsize := options.blocksigsize
            blocksig := options.blocksig
            mutable := st.mutable }

/-- The module scope of `abstractblock.js` binds `assert`, `util`,
`digest`, `StaticWriter`, `InvItem`, `encoding`, `consensus` and
`WriteBuffer` (lines 10–17) — no binding named `options` exists, at module
scope or globally. -/
def moduleScopeOptions : Option (Option Options) := none

/-- `AbstractBlock.prototype.parseJSON` (lines 121–149): the body never
mentions its parameter `json`; every field access goes through the free
identifier `options`.  Under `'use strict'` with no binding of that name
in scope, evaluating the very first statement's `options` raises a
`ReferenceError` before anything is assigned. -/
def parseJSON (st : JsBlock) (json : Option Options) :
    Except JsError JsBlock :=
  match moduleScopeOptions with
  | none => .error (.referenceError "options")
  | some optionsVal => parseJSONBody st optionsVal

/-! ## Specification-side definitions

Written from the spec's words (§3 data model, §6 wire table), to be
compared against the source-derived definitions above. -/

/-- A well-formed 32-byte digest value: exactly 32 bytes. -/
def bytes32 (l : List Nat) : Prop := l.length = 32 ∧ ∀ x ∈ l, x < 256

instance (l : List Nat) : Decidable (bytes32 l) := by
  unfold bytes32; infer_instance

/-- A validly constructed header (§3): the unsigned 32-bit fields in
range, the five digest fields 32 bytes, `outpointn` in signed 32-bit
range, and `blocksigsize` equal to the true byte length of `blocksig`. -/
def WFBlock (b : Block) : Prop :=
  b.version < 2 ^ 32 ∧ b.time < 2 ^ 32 ∧ b.bits < 2 ^ 32 ∧
  b.nonce < 2 ^ 32 ∧
  bytes32 b.prevHash ∧ bytes32 b.merkleRoot ∧
  bytes32 b.hashMerkleRootWithData ∧ bytes32 b.hashMerkleRootWithPrevData ∧
  bytes32 b.outpointhash ∧
  -(2 ^ 31) ≤ b.outpointn ∧ b.outpointn < 2 ^ 31 ∧
  b.blocksigsize = b.blocksig.length ∧ b.blocksig.length < 2 ^ 64 ∧
  ∀ x ∈ b.blocksig, x < 256

instance (b : Block) : Decidable (WFBlock b) := by
  unfold WFBlock; infer_instance

/-- Spec-side little-endian rendering (§6: “all integers little-endian”):
byte `i` of the output holds bits `8*i .. 8*i+7` of the value. -/
def specLE (width n : Nat) : List Nat :=
  (List.range width).map (fun i => n / 256 ^ i % 256)

/-- Spec-side signed 32-bit rendering: the two's-complement residue of the
value, little-endian. -/
def specSigned4 (i : Int) : List Nat := specLE 4 (i % (2 ^ 32 : Int)).toNat

/-- The §6 wire table, field for field: version (4 bytes), the four
32-byte digests, time/bits/nonce (4 bytes each), outpointHash (32 bytes),
outpointN (4 bytes, signed), blockSigSize (variable-length integer),
blockSig (raw bytes) — and nothing else. -/
def abbrLayoutSpec (b : Block) : List Nat :=
  specLE 4 b.version ++
  b.prevHash ++ b.merkleRoot ++
  b.hashMerkleRootWithData ++ b.hashMerkleRootWithPrevData ++
  specLE 4 b.time ++ specLE 4 b.bits ++ specLE 4 b.nonce ++
  b.outpointhash ++ specSigned4 b.outpointn ++
  varintBytes b.blocksigsize ++ b.blocksig

/-- A correctly-shaped hex string for a 32-byte digest (§4.4 “hash fields
must be correctly-shaped hex strings”): 64 hex digits. -/
def isHex64 (s : String) : Bool :=
  s.length = 64 &&
  s.toList.all (fun c =>
    c.isDigit || ('a' ≤ c && c ≤ 'f') || ('A' ≤ c && c ≤ 'F'))

/-! ## Concrete entities used by the witnesses -/

/-- A concrete, validly constructed header-only entity with the given
difficulty bits and nonce: zero digests, an empty signature, no
transactions, immutable, caches empty. -/
def mkTestBlock (bits nonce : Nat) : Block :=
  { version := 1
    prevHash := List.replicate 32 0
    merkleRoot := List.replicate 32 0
    hashMerkleRootWithData := List.replicate 32 0
    hashMerkleRootWithPrevData := List.replicate 32 0
    time := 1540166400
    bits := bits
    nonce := nonce
    outpointhash := List.replicate 32 0
    outpointn := 0
    blocksigsize := 0
    blocksig := []
    txs := none
    mutable := false
    _hash := none
    _hhash := none
    _size := -1
    _witness := -1 }

/-- The header-only entity with `bits = 0x207fffff` (the largest
non-overflowing compact target) and the nonce `0`: its double digest, read
little-endian, exceeds the target, so proof-of-work fails. -/
def cBlockPowFail : Block := mkTestBlock 0x207fffff 0

/-- The same entity with nonce `1`: its double digest satisfies the
target, so proof-of-work succeeds. -/
def cBlockPowPass : Block := mkTestBlock 0x207fffff 1

/-- An entity whose binary hash cache is already populated. -/
def cBlockCached : Block :=
  { mkTestBlock 0 4 with _hash := some (List.replicate 32 7) }

/-- A mutable entity with empty caches. -/
def cBlockMutable : Block := { mkTestBlock 0 5 with mutable := true }

/-- A validly constructed header exercising every field: distinct digest
bytes, a negative outpoint index, and a three-byte signature. -/
def cBlockRich : Block :=
  { version := 0x01020304
    prevHash := (List.range 32).map (fun i => i + 1)
    merkleRoot := (List.range 32).map (fun i => 2 * i)
    hashMerkleRootWithData := (List.range 32).map (fun i => 255 - i)
    hashMerkleRootWithPrevData := List.replicate 32 0xab
    time := 1540166401
    bits := 0x1d00ffff
    nonce := 0xdeadbeef
    outpointhash := (List.range 32).map (fun i => 100 + i)
    outpointn := -5
    blocksigsize := 3
    blocksig := [0x30, 0x45, 0x02]
    txs := some [⟨7, some 9⟩]
    mutable := false
    _hash := none
    _hhash := none
    _size := -1
    _witness := -1 }

/-- An immutable entity whose hash was computed (and memoized) before a
`parseAbbr` is applied to it. -/
def cBlockPre : Block :=
  { mkTestBlock 0 6 with _hash := some (List.replicate 32 171) }

/-- The entity `cBlockPre` becomes after decoding `cBlockRich`'s
serialization: header fields from the buffer, caches untouched. -/
def c10Parsed : Block :=
  { cBlockPre with
      version := cBlockRich.version
      prevHash := cBlockRich.prevHash
      merkleRoot := cBlockRich.merkleRoot
      hashMerkleRootWithData := cBlockRich.hashMerkleRootWithData
      hashMerkleRootWithPrevData := cBlockRich.hashMerkleRootWithPrevData
      time := cBlockRich.time
      bits := cBlockRich.bits
      nonce := cBlockRich.nonce
      outpointhash := cBlockRich.outpointhash
      outpointn := cBlockRich.outpointn
      blocksigsize := cBlockRich.blocksigsize
      blocksig := cBlockRich.blocksig }

/-- The conjunction of the eight type assertions `parseOptions` actually
performs (lines 84–92): `util.isNumber` on `version`, `time`, `bits`,
`nonce`; `typeof === 'string'` on the four digest fields. -/
def parseOptionsChecks (o : Options) : Bool :=
  isNumber o.version && isString o.prevHash && isString o.merkleRoot &&
  isString o.hashMerkleRootWithData && isString o.hashMerkleRootWithPrevData &&
  isNumber o.time && isNumber o.bits && isNumber o.nonce

/-- Options that pass every check `parseOptions` performs while violating
the claim's stronger reading: `prevHash` is the string `"zz"` (not a
correctly-shaped hex digest) and the four unvalidated fields hold
`undefined`/`NaN`. -/
def c5OptsLoose : Options :=
  { version := .num 1
    prevHash := .str "zz"
    merkleRoot := .str "00"
    hashMerkleRootWithData := .str NULL_HASH
    hashMerkleRootWithPrevData := .str NULL_HASH
    time := .num 0
    bits := .num 0
    nonce := .num 0
    outpointhash := .undefined
    outpointn := .undefined
    blocksigsize := .nan
    blocksig := .undefined
    mutable := .undefined }

/-- Options whose `version` is a string: the assertion that fails carries
no message, so the resulting error does not name the violated field. -/
def c5OptsBadNum : Options :=
  { c5OptsLoose with version := .str "one", prevHash := .str NULL_HASH }

/-! ## Helper lemmas -/

theorem except_bind_ok {ε α β : Type} (a : α) (f : α → Except ε β) :
    (Except.ok a : Except ε α) >>= f = f a := rfl

theorem leBytes_length (k n : Nat) : (leBytes k n).length = k := by
  induction k generalizing n with
  | zero => rfl
  | succ k ih => simp [leBytes, ih]

theorem leNat_leBytes (k n : Nat) (h : n < 2 ^ (8 * k)) :
    leNat (leBytes k n) = n := by
  induction k generalizing n with
  | zero => simp [leBytes, leNat]; omega
  | succ k ih =>
      have hdiv : n / 256 < 2 ^ (8 * k) := by
        have : 2 ^ (8 * (k + 1)) = 2 ^ (8 * k) * 256 := by ring
        omega
      simp [leBytes, leNat, ih (n / 256) hdiv]
      omega

theorem readBytes_append (k : Nat) (xs r : List Nat) (h : xs.length = k) :
    readBytes k (xs ++ r) = .ok (xs, r) := by
  subst h
  simp [readBytes, List.take_left, List.drop_left]

theorem readUInt_leBytes (k n : Nat) (r : List Nat) (h : n < 2 ^ (8 * k)) :
    readUInt k (leBytes k n ++ r) = .ok (n, r) := by
  simp [readUInt, readBytes_append k _ r (leBytes_length k n), except_bind_ok,
    leNat_leBytes k n h]

theorem readU32_u32Bytes (n : Nat) (r : List Nat) (h : n < 2 ^ 32) :
    readU32 (u32Bytes n ++ r) = .ok (n, r) :=
  readUInt_leBytes 4 n r h

theorem readHash_append (xs r : List Nat) (h : xs.length = 32) :
    readHash (xs ++ r) = .ok (xs, r) :=
  readBytes_append 32 xs r h

theorem readString_append (k : Nat) (xs r : List Nat) (h : xs.length = k) :
    readString k (xs ++ r) = .ok (xs, r) :=
  readBytes_append k xs r h

theorem read32_i32Bytes (i : Int) (r : List Nat)
    (h1 : -(2 ^ 31) ≤ i) (h2 : i < 2 ^ 31) :
    read32 (i32Bytes i ++ r) = .ok (i, r) := by
  have hm : (i % (2 ^ 32 : Int)).toNat < 2 ^ 32 := by omega
  simp only [read32, i32Bytes, readU32_u32Bytes _ r hm, except_bind_ok,
    Except.ok.injEq, Prod.mk.injEq, and_true]
  split_ifs <;> omega

theorem readVarint_varintBytes (n : Nat) (r : List Nat) (h : n < 2 ^ 64) :
    readVarint (varintBytes n ++ r) = .ok (n, r) := by
  by_cases hc1 : n < 0xfd
  · have hr : readUInt 1 ((n :: r : List Nat)) = .ok (n, r) := by
      have := readUInt_leBytes 1 n r (by omega)
      simpa [leBytes, Nat.mod_eq_of_lt (show n < 256 by omega)] using this
    have e1 : ¬(n = 0xff) := by omega
    have e2 : ¬(n = 0xfe) := by omega
    have e3 : ¬(n = 0xfd) := by omega
    simp [varintBytes, readVarint, hc1, hr, except_bind_ok, e1, e2, e3]
  · by_cases hc2 : n ≤ 0xffff
    · have hmk : readUInt 1 ((0xfd : Nat) :: (leBytes 2 n ++ r)) =
          .ok (0xfd, leBytes 2 n ++ r) := by
        have := readUInt_leBytes 1 0xfd (leBytes 2 n ++ r) (by norm_num)
        simpa [leBytes] using this
      simp [varintBytes, readVarint, hc1, hc2, u16Bytes, hmk, except_bind_ok,
        readU16, readUInt_leBytes 2 n r (by omega)]
    · by_cases hc3 : n ≤ 0xffffffff
      · have hmk : readUInt 1 ((0xfe : Nat) :: (leBytes 4 n ++ r)) =
            .ok (0xfe, leBytes 4 n ++ r) := by
          have := readUInt_leBytes 1 0xfe (leBytes 4 n ++ r) (by norm_num)
          simpa [leBytes] using this
        simp [varintBytes, readVarint, hc1, hc2, hc3, u32Bytes, hmk,
          except_bind_ok, readU32, readUInt_leBytes 4 n r (by omega)]
      · have hmk : readUInt 1 ((0xff : Nat) :: (leBytes 8 n ++ r)) =
            .ok (0xff, leBytes 8 n ++ r) := by
          have := readUInt_leBytes 1 0xff (leBytes 8 n ++ r) (by norm_num)
          simpa [leBytes] using this
        simp [varintBytes, readVarint, hc1, hc2, hc3, u64Bytes, hmk,
          except_bind_ok, readU64, readUInt_leBytes 8 n r (by omega)]

theorem abbr_eq (b : Block) :
    b.abbr =
      u32Bytes b.version ++ b.prevHash ++ b.merkleRoot ++
      b.hashMerkleRootWithData ++ b.hashMerkleRootWithPrevData ++
      u32Bytes b.time ++ u32Bytes b.bits ++ u32Bytes b.nonce ++
      b.outpointhash ++ i32Bytes b.outpointn ++
      varintBytes b.blocksigsize ++ b.blocksig := by
  simp [Block.abbr, Block.writeAbbr, WriteBuffer.render, WriteBuffer.writeU32,
    WriteBuffer.writeHash, WriteBuffer.write32, WriteBuffer.writeVarint,
    WriteBuffer.writeString, WriteOp.bytes]

theorem hash_cached (b : Block) (d : List Nat) (h : b._hash = some d) :
    b.hash false = (b, d) := by
  simp [Block.hash, h]

theorem hash_uncached_immutable (b : Block) (h1 : b._hash = none)
    (h2 : b.mutable = false) :
    b.hash false = ({ b with _hash := some (hash256 b.abbr) }, hash256 b.abbr) := by
  simp [Block.hash, h1, h2]

theorem hash_uncached_mutable (b : Block) (h1 : b._hash = none)
    (h2 : b.mutable = true) :
    b.hash false = (b, hash256 b.abbr) := by
  simp [Block.hash, h1, h2]

theorem hash_hex_uncached_mutable (b : Block) (h1 : b._hash = none)
    (h2 : b._hhash = none) (h3 : b.mutable = true) :
    b.hash true = (b, hexOf (hash256 b.abbr)) := by
  simp [Block.hash, h1, h2, h3]

theorem parseAbbr_ok_shape (b : Block) (l : List Nat) (b' : Block)
    (rest : List Nat) (hp : b.parseAbbr l = .ok (b', rest)) :
    ∃ v p m dd pd t bi nn oh opn sz sg,
      b' = { b with version := v, prevHash := p, merkleRoot := m,
                    hashMerkleRootWithData := dd,
                    hashMerkleRootWithPrevData := pd,
                    time := t, bits := bi, nonce := nn, outpointhash := oh,
                    outpointn := opn, blocksigsize := sz, blocksig := sg } := by
  unfold Block.parseAbbr at hp
  simp only [bind, Except.bind] at hp
  repeat' split at hp
  any_goals exact Except.noConfusion hp
  simp only [Except.ok.injEq, Prod.mk.injEq] at hp
  obtain ⟨h1, h2⟩ := hp
  exact ⟨_, _, _, _, _, _, _, _, _, _, _, _, h1.symm⟩

theorem verifyPOW_snd (b : Block) : b.verifyPOW.2 = (b.hash false).1 := by
  rcases h : b.hash false with ⟨b1, hh⟩
  simp [Block.verifyPOW, h]

theorem verifyPOW_fst (b : Block) :
    b.verifyPOW.1 = consensusVerifyPOW (b.hash false).2 (b.hash false).1.bits := by
  rcases h : b.hash false with ⟨b1, hh⟩
  simp [Block.verifyPOW, h]

theorem verify_pow_false (b : Block)
    (body : Block → Except JsError (Bool × Block)) (h : b.verifyPOW.1 = false) :
    b.verify body = .ok (false, b.verifyPOW.2) := by
  rcases hpw : b.verifyPOW with ⟨pow, b1⟩
  rw [hpw] at h
  simp only at h
  subst h
  simp [Block.verify, hpw]

theorem verify_ok_true_iff (b : Block)
    (body : Block → Except JsError (Bool × Block)) (st : Block) :
    b.verify body = .ok (true, st) ↔
      b.verifyPOW.1 = true ∧ body b.verifyPOW.2 = .ok (true, st) := by
  rcases hpw : b.verifyPOW with ⟨pow, b1⟩
  cases pow
  · simp [Block.verify, hpw]
  · rcases hb : body b1 with e | p
    · simp [Block.verify, hpw, hb]
    · rcases p with ⟨bb, b2⟩
      cases bb <;> simp [Block.verify, hpw, hb]

theorem except_bind_err {ε α β : Type} (e : ε) (f : α → Except ε β) :
    (Except.error e : Except ε α) >>= f = .error e := rfl

theorem u32Bytes_eq_specLE (n : Nat) : u32Bytes n = specLE 4 n := by
  simp [u32Bytes, leBytes, specLE, List.range_succ, Nat.div_div_eq_div_mul]

theorem cBlockPowFail_hash :
    cBlockPowFail.hash false =
      ({ cBlockPowFail with _hash := some (hash256 cBlockPowFail.abbr) },
        hash256 cBlockPowFail.abbr) :=
  hash_uncached_immutable _ rfl rfl

theorem cBlockPowPass_hash :
    cBlockPowPass.hash false =
      ({ cBlockPowPass with _hash := some (hash256 cBlockPowPass.abbr) },
        hash256 cBlockPowPass.abbr) :=
  hash_uncached_immutable _ rfl rfl

set_option maxRecDepth 10000 in
theorem hash256_cBlockPowFail :
    hash256 cBlockPowFail.abbr =
      [82, 98, 88, 21, 70, 3, 59, 182, 254, 166, 82, 127, 87, 7, 67, 113,
       61, 115, 197, 209, 9, 161, 113, 131, 247, 220, 181, 242, 12, 25,
       113, 165] := by
  decide

set_option maxRecDepth 10000 in
theorem hash256_cBlockPowPass :
    hash256 cBlockPowPass.abbr =
      [216, 96, 80, 23, 96, 13, 171, 233, 92, 127, 255, 216, 147, 115, 2,
       162, 128, 28, 134, 26, 211, 217, 192, 208, 55, 84, 190, 106, 180,
       107, 91, 110] := by
  decide

set_option maxRecDepth 10000 in
theorem cBlockPowFail_pow : cBlockPowFail.verifyPOW.1 = false := by
  rw [verifyPOW_fst, cBlockPowFail_hash]
  simp only
  rw [hash256_cBlockPowFail]
  decide

set_option maxRecDepth 10000 in
theorem cBlockPowPass_pow : cBlockPowPass.verifyPOW.1 = true := by
  rw [verifyPOW_fst, cBlockPowPass_hash]
  simp only
  rw [hash256_cBlockPowPass]
  decide

/-! ## The claims -/

/-- C1: for every block entity, `verify()` returns true iff both
`verifyPOW()` and `verifyBody()` return true, and execution is two-phase:
when `verifyPOW()` returns false, `verify()` returns false without ever
invoking `verifyBody()` — the outcome and resulting state are those of the
PoW phase alone, identical for every possible body check. -/
theorem c1_verify_two_phase (b : Block)
    (verifyBody : Block → Except JsError (Bool × Block)) :
    (∀ st, b.verify verifyBody = .ok (true, st) ↔
        b.verifyPOW.1 = true ∧ verifyBody b.verifyPOW.2 = .ok (true, st))
  ∧ (b.verifyPOW.1 = false →
        b.verify verifyBody = .ok (false, b.verifyPOW.2)
      ∧ ∀ body2, b.verify verifyBody = b.verify body2) :=
  ⟨fun st => verify_ok_true_iff b verifyBody st,
   fun h => ⟨verify_pow_false b verifyBody h,
     fun body2 =>
       (verify_pow_false b verifyBody h).trans
         (verify_pow_false b body2 h).symm⟩⟩

/-- C1 witness: at the concrete header whose PoW fails, `verify` returns
false with the PoW phase's state, and the result is the same whether the
body check is the abstract thrower or one that would accept. -/
theorem c1_verify_two_phase_witness :
    cBlockPowFail.verify abstractVerifyBody =
      .ok (false, cBlockPowFail.verifyPOW.2)
  ∧ cBlockPowFail.verify abstractVerifyBody =
      cBlockPowFail.verify (fun s => .ok (true, s)) :=
  ⟨((c1_verify_two_phase cBlockPowFail abstractVerifyBody).2
      cBlockPowFail_pow).1,
   ((c1_verify_two_phase cBlockPowFail abstractVerifyBody).2
      cBlockPowFail_pow).2 (fun s => .ok (true, s))⟩

/-- C3: the abbreviated serialization is, for every header entity, exactly
the §6 wire layout — version (u32), the four 32-byte digests, time, bits,
nonce (u32 each), outpointhash (32 bytes), outpointn (signed 32-bit),
blocksigsize (varint), the raw blocksig bytes — and nothing else. -/
theorem c3_abbr_is_wire_layout (b : Block) : b.abbr = abbrLayoutSpec b := by
  rw [abbr_eq]
  unfold abbrLayoutSpec specSigned4
  unfold i32Bytes
  simp only [u32Bytes_eq_specLE]

/-- C4: on an immutable entity with an empty cache, the first `hash()`
call computes the double digest of the abbreviated serialization and
memoizes it, and a later call returns the identical digest with no further
state change; on any entity with a populated cache, `hash()` returns the
cached digest unchanged; on a mutable entity with empty caches, `hash()`
recomputes from the current fields on every call and writes neither cache
slot. -/
theorem c4_hash_memoization (b : Block) :
    (b.mutable = false → b._hash = none →
        b.hash false =
          ({ b with _hash := some (hash256 b.abbr) }, hash256 b.abbr)
      ∧ ({ b with _hash := some (hash256 b.abbr) } : Block).hash false =
          ({ b with _hash := some (hash256 b.abbr) }, hash256 b.abbr))
  ∧ (∀ d, b._hash = some d → b.hash false = (b, d))
  ∧ (b.mutable = true → b._hash = none → b._hhash = none →
        b.hash false = (b, hash256 b.abbr)
      ∧ b.hash true = (b, hexOf (hash256 b.abbr))) := by
  exact ⟨fun hm hn =>
      ⟨hash_uncached_immutable b hn hm, hash_cached _ _ rfl⟩,
    fun d hd => hash_cached b d hd,
    fun hm hn hh =>
      ⟨hash_uncached_mutable b hn hm, hash_hex_uncached_mutable b hn hh hm⟩⟩

/-- C4 witness: the contract at three concrete entities — a fresh
immutable one (first call memoizes, second call is stable), one with a
populated cache (returned unchanged), and a fresh mutable one (recomputes,
no cache write, for both binary and hex calls). -/
theorem c4_hash_memoization_witness :
    (cBlockPowFail.hash false =
        ({ cBlockPowFail with _hash := some (hash256 cBlockPowFail.abbr) },
          hash256 cBlockPowFail.abbr)
      ∧ ({ cBlockPowFail with
            _hash := some (hash256 cBlockPowFail.abbr) } : Block).hash false =
          ({ cBlockPowFail with _hash := some (hash256 cBlockPowFail.abbr) },
            hash256 cBlockPowFail.abbr))
  ∧ cBlockCached.hash false = (cBlockCached, List.replicate 32 7)
  ∧ (cBlockMutable.hash false = (cBlockMutable, hash256 cBlockMutable.abbr)
      ∧ cBlockMutable.hash true =
          (cBlockMutable, hexOf (hash256 cBlockMutable.abbr))) :=
  ⟨(c4_hash_memoization cBlockPowFail).1 rfl rfl,
   (c4_hash_memoization cBlockCached).2.1 (List.replicate 32 7) rfl,
   (c4_hash_memoization cBlockMutable).2.2 rfl rfl rfl⟩

/-- C6: the abstract base's `verifyBody()` raises (`Abstract method.`)
rather than returning a verification result, so `verify()` on an entity
whose PoW check succeeds also raises rather than returning false. -/
theorem c6_abstract_verifyBody_raises (b : Block) :
    abstractVerifyBody b = .error (.thrown "Abstract method.")
  ∧ (b.verifyPOW.1 = true →
      b.verify abstractVerifyBody = .error (.thrown "Abstract method.")) := by
  refine ⟨rfl, fun h => ?_⟩
  rcases hpw : b.verifyPOW with ⟨pow, b1⟩
  rw [hpw] at h
  simp only at h
  subst h
  simp [Block.verify, hpw, abstractVerifyBody]

/-- C6 witness: at the concrete header whose PoW succeeds, `verify`
with the abstract body check raises `Abstract method.`. -/
theorem c6_abstract_verifyBody_raises_witness :
    cBlockPowPass.verify abstractVerifyBody =
      .error (.thrown "Abstract method.") :=
  (c6_abstract_verifyBody_raises cBlockPowPass).2 cBlockPowPass_pow

/-- C9: `refresh(deep)` clears exactly the four derived cache slots and
leaves the twelve header fields (and the mutability flag) unchanged; when
`deep` is set it refreshes every transaction in `txs`, and when `txs` is
absent the deep pass is a no-op on transactions. -/
theorem c9_refresh_contract (b : Block) (all : Bool) :
    ((b.refresh all).version = b.version
      ∧ (b.refresh all).prevHash = b.prevHash
      ∧ (b.refresh all).merkleRoot = b.merkleRoot
      ∧ (b.refresh all).hashMerkleRootWithData = b.hashMerkleRootWithData
      ∧ (b.refresh all).hashMerkleRootWithPrevData =
          b.hashMerkleRootWithPrevData
      ∧ (b.refresh all).time = b.time
      ∧ (b.refresh all).bits = b.bits
      ∧ (b.refresh all).nonce = b.nonce
      ∧ (b.refresh all).outpointhash = b.outpointhash
      ∧ (b.refresh all).outpointn = b.outpointn
      ∧ (b.refresh all).blocksigsize = b.blocksigsize
      ∧ (b.refresh all).blocksig = b.blocksig
      ∧ (b.refresh all).mutable = b.mutable)
  ∧ ((b.refresh all)._hash = none ∧ (b.refresh all)._hhash = none
      ∧ (b.refresh all)._size = -1 ∧ (b.refresh all)._witness = -1)
  ∧ (b.refresh all).txs =
      (if all then Option.map (List.map Tx.refresh) b.txs else b.txs) := by
  cases all <;> rcases hx : b.txs with _ | txs <;>
    simp [Block.refresh, Block._refresh, hx]

/-- C2: decoding the bytes produced by the abbreviated serializer of a
validly constructed header reproduces every one of the twelve header
fields exactly: `parseAbbr` on `writeAbbr`'s rendered output yields an
entity carrying h's version, digests, time, bits, nonce, outpoint,
signature size and signature, with no bytes left over. -/
theorem c2_parse_serialize_roundtrip (recv b : Block) (h : WFBlock b) :
    recv.parseAbbr b.abbr =
      .ok ({ recv with
              version := b.version
              prevHash := b.prevHash
              merkleRoot := b.merkleRoot
              hashMerkleRootWithData := b.hashMerkleRootWithData
              hashMerkleRootWithPrevData := b.hashMerkleRootWithPrevData
              time := b.time
              bits := b.bits
              nonce := b.nonce
              outpointhash := b.outpointhash
              outpointn := b.outpointn
              blocksigsize := b.blocksigsize
              blocksig := b.blocksig }, []) := by
  obtain ⟨hv, ht, hb, hn, ⟨hp1, _⟩, ⟨hm1, _⟩, ⟨hd1, _⟩, ⟨hpd1, _⟩, ⟨ho1, _⟩,
    hl, hu, hs, hsz, hby⟩ := h
  rw [abbr_eq]
  have hsig : readString b.blocksigsize b.blocksig = .ok (b.blocksig, []) := by
    have := readString_append b.blocksigsize b.blocksig [] hs.symm
    simpa using this
  simp [Block.parseAbbr, except_bind_ok,
    readU32_u32Bytes b.version _ hv,
    readHash_append b.prevHash _ hp1,
    readHash_append b.merkleRoot _ hm1,
    readHash_append b.hashMerkleRootWithData _ hd1,
    readHash_append b.hashMerkleRootWithPrevData _ hpd1,
    readU32_u32Bytes b.time _ ht,
    readU32_u32Bytes b.bits _ hb,
    readU32_u32Bytes b.nonce _ hn,
    readHash_append b.outpointhash _ ho1,
    read32_i32Bytes b.outpointn _ hl hu,
    readVarint_varintBytes b.blocksigsize _ (by omega),
    hsig]

/-- C2 witness: the round trip at a concrete well-formed header with
distinctive field values, decoded into a fresh receiver. -/
theorem c2_parse_serialize_roundtrip_witness :
    (mkTestBlock 0 0).parseAbbr cBlockRich.abbr =
      .ok ({ mkTestBlock 0 0 with
              version := cBlockRich.version
              prevHash := cBlockRich.prevHash
              merkleRoot := cBlockRich.merkleRoot
              hashMerkleRootWithData := cBlockRich.hashMerkleRootWithData
              hashMerkleRootWithPrevData :=
                cBlockRich.hashMerkleRootWithPrevData
              time := cBlockRich.time
              bits := cBlockRich.bits
              nonce := cBlockRich.nonce
              outpointhash := cBlockRich.outpointhash
              outpointn := cBlockRich.outpointn
              blocksigsize := cBlockRich.blocksigsize
              blocksig := cBlockRich.blocksig }, []) :=
  c2_parse_serialize_roundtrip (mkTestBlock 0 0) cBlockRich (by decide)

/-- C10: `parseAbbr` overwrites all twelve header fields of the receiver
while leaving the four derived cache slots untouched, so on an immutable
entity whose hash was memoized before decoding, a subsequent `hash()`
call returns the stale pre-decode digest. -/
theorem c10_parseAbbr_stale_cache (b : Block) (l rest : List Nat)
    (b' : Block) (d : List Nat) (hmut : b.mutable = false)
    (hp : b.parseAbbr l = .ok (b', rest)) (hc : b._hash = some d) :
    (∃ v p m dd pd t bi nn oh opn sz sg,
        b' = { b with version := v, prevHash := p, merkleRoot := m,
                      hashMerkleRootWithData := dd,
                      hashMerkleRootWithPrevData := pd, time := t,
                      bits := bi, nonce := nn, outpointhash := oh,
                      outpointn := opn, blocksigsize := sz, blocksig := sg })
  ∧ b'._hash = some d ∧ b'._hhash = b._hhash ∧ b'._size = b._size
  ∧ b'._witness = b._witness ∧ b'.hash false = (b', d) := by
  obtain ⟨v, p, m, dd, pd, t, bi, nn, oh, opn, sz, sg, hb⟩ :=
    parseAbbr_ok_shape b l b' rest hp
  subst hb
  exact ⟨⟨v, p, m, dd, pd, t, bi, nn, oh, opn, sz, sg, rfl⟩,
    hc, rfl, rfl, rfl, hash_cached _ d hc⟩

/-- C10 witness: a concrete immutable entity with a memoized digest
decodes a concrete buffer; its cache slots survive and `hash()` returns
the stale digest. -/
theorem c10_parseAbbr_stale_cache_witness :
    (∃ v p m dd pd t bi nn oh opn sz sg,
        c10Parsed = { cBlockPre with
                        version := v, prevHash := p, merkleRoot := m,
                        hashMerkleRootWithData := dd,
                        hashMerkleRootWithPrevData := pd, time := t,
                        bits := bi, nonce := nn, outpointhash := oh,
                        outpointn := opn, blocksigsize := sz,
                        blocksig := sg })
  ∧ c10Parsed._hash = some (List.replicate 32 171)
  ∧ c10Parsed._hhash = cBlockPre._hhash
  ∧ c10Parsed._size = cBlockPre._size
  ∧ c10Parsed._witness = cBlockPre._witness
  ∧ c10Parsed.hash false = (c10Parsed, List.replicate 32 171) :=
  c10_parseAbbr_stale_cache cBlockPre cBlockRich.abbr [] c10Parsed
    (List.replicate 32 171) rfl
    (by set_option maxRecDepth 10000 in decide) rfl

/-- C7 counterexample: the claim “a false-returning `verify()` changes no
field, including the cache slots” fails at a concrete immutable entity
with an empty hash cache — the failing call memoizes `_hash`, which is
`none` before the call and populated after it. -/
theorem c7_claim_counterexample :
    cBlockPowFail.verify abstractVerifyBody =
      .ok (false,
        { cBlockPowFail with _hash := some (hash256 cBlockPowFail.abbr) })
  ∧ ({ cBlockPowFail with
        _hash := some (hash256 cBlockPowFail.abbr) })._hash ≠
      cBlockPowFail._hash := by
  constructor
  · have h := verify_pow_false cBlockPowFail abstractVerifyBody
      cBlockPowFail_pow
    rw [h, verifyPOW_snd, cBlockPowFail_hash]
  · simp [cBlockPowFail, mkTestBlock]

/-- C7 (amended): when `verify()` returns false at the PoW phase, the
twelve header fields, the transaction vector, the mutability flag, and the
`_hhash`/`_size`/`_witness` cache slots are unchanged; the `_hash` slot is
also unchanged except in one case — an immutable entity with no cached
hash, where the `hash()` call inside `verifyPOW()` memoizes the digest. -/
theorem c7_verify_false_pow_frame (b : Block)
    (verifyBody : Block → Except JsError (Bool × Block))
    (hpow : b.verifyPOW.1 = false) :
    b.verify verifyBody = .ok (false, b.verifyPOW.2)
  ∧ b.verifyPOW.2.version = b.version
  ∧ b.verifyPOW.2.prevHash = b.prevHash
  ∧ b.verifyPOW.2.merkleRoot = b.merkleRoot
  ∧ b.verifyPOW.2.hashMerkleRootWithData = b.hashMerkleRootWithData
  ∧ b.verifyPOW.2.hashMerkleRootWithPrevData = b.hashMerkleRootWithPrevData
  ∧ b.verifyPOW.2.time = b.time
  ∧ b.verifyPOW.2.bits = b.bits
  ∧ b.verifyPOW.2.nonce = b.nonce
  ∧ b.verifyPOW.2.outpointhash = b.outpointhash
  ∧ b.verifyPOW.2.outpointn = b.outpointn
  ∧ b.verifyPOW.2.blocksigsize = b.blocksigsize
  ∧ b.verifyPOW.2.blocksig = b.blocksig
  ∧ b.verifyPOW.2.txs = b.txs
  ∧ b.verifyPOW.2.mutable = b.mutable
  ∧ b.verifyPOW.2._hhash = b._hhash
  ∧ b.verifyPOW.2._size = b._size
  ∧ b.verifyPOW.2._witness = b._witness
  ∧ (b.verifyPOW.2._hash = b._hash ∨
      (b._hash = none ∧ b.mutable = false ∧
        b.verifyPOW.2._hash = some (hash256 b.abbr))) := by
  refine ⟨verify_pow_false b verifyBody hpow, ?_⟩
  rw [verifyPOW_snd]
  rcases hd : b._hash with _ | d
  · rcases hm : b.mutable
    · rw [hash_uncached_immutable b hd hm]
      simp [hd, hm]
    · rw [hash_uncached_mutable b hd hm]
      simp [hm, hd]
  · rw [hash_cached b d hd]
    simp [hd]

/-- C7 witness (amended): at a concrete immutable entity with an empty
cache failing PoW, `verify` returns false with the PoW-phase state, whose
`_hash` slot holds the newly memoized digest. -/
theorem c7_verify_false_pow_frame_witness :
    cBlockPowFail.verify abstractVerifyBody =
      .ok (false, cBlockPowFail.verifyPOW.2)
  ∧ (cBlockPowFail.verifyPOW.2._hash = cBlockPowFail._hash ∨
      (cBlockPowFail._hash = none ∧ cBlockPowFail.mutable = false ∧
        cBlockPowFail.verifyPOW.2._hash =
          some (hash256 cBlockPowFail.abbr))) := by
  have h := c7_verify_false_pow_frame cBlockPowFail abstractVerifyBody
    cBlockPowFail_pow
  exact ⟨h.1, h.2.2.2.2.2.2.2.2.2.2.2.2.2.2.2.2.2.2⟩

/-- C5 (amended): `parseOptions` requires its argument to be present
(failing with the named message `Block data is required.` otherwise) and
asserts, before any assignment, that `version`, `time`, `bits`, `nonce`
are finite numbers and that the four digest fields are strings — their
hex shape is not checked; a failed assertion raises an assertion error
carrying no field name, and no entity state is produced; when the checks
pass, all twelve fields are copied — `outpointhash`, `outpointn`,
`blocksigsize`, `blocksig` without any validation — and `mutable` is set
from the option's truthiness when it is neither `null` nor `undefined`. -/
theorem c5_parseOptions_validation (st : JsBlock) (o : Options) :
    parseOptions st none =
      .error (.assertionError (some "Block data is required."))
  ∧ (parseOptionsChecks o = false →
        parseOptions st (some o) = .error (.assertionError none))
  ∧ (parseOptionsChecks o = true →
        parseOptions st (some o) = .ok
          { version := o.version
            prevHash := o.prevHash
            merkleRoot := o.merkleRoot
            hashMerkleRootWithData := o.hashMerkleRootWithData
            hashMerkleRootWithPrevData := o.hashMerkleRootWithPrevData
            time := o.time
            bits := o.bits
            nonce := o.nonce
            outpointhash := o.outpointhash
            outpointn := o.outpointn
            blocksigsize := o.blocksigsize
            blocksig := o.blocksig
            mutable :=
              match o.mutable with
              | .undefined => st.mutable
              | .nullv => st.mutable
              | v => v.toBool }) := by
  refine ⟨rfl, ?_, ?_⟩
  · intro h
    by_cases h1 : isNumber o.version
    case neg =>
      simp [parseOptions, jsAssert, h1, except_bind_err]
    case pos =>
    by_cases h2 : isString o.prevHash
    case neg =>
      simp [parseOptions, jsAssert, h1, h2, except_bind_ok, except_bind_err]
    case pos =>
    by_cases h3 : isString o.merkleRoot
    case neg =>
      simp [parseOptions, jsAssert, h1, h2, h3, except_bind_ok,
        except_bind_err]
    case pos =>
    by_cases h4 : isString o.hashMerkleRootWithData
    case neg =>
      simp [parseOptions, jsAssert, h1, h2, h3, h4, except_bind_ok,
        except_bind_err]
    case pos =>
    by_cases h5 : isString o.hashMerkleRootWithPrevData
    case neg =>
      simp [parseOptions, jsAssert, h1, h2, h3, h4, h5, except_bind_ok,
        except_bind_err]
    case pos =>
    by_cases h6 : isNumber o.time
    case neg =>
      simp [parseOptions, jsAssert, h1, h2, h3, h4, h5, h6, except_bind_ok,
        except_bind_err]
    case pos =>
    by_cases h7 : isNumber o.bits
    case neg =>
      simp [parseOptions, jsAssert, h1, h2, h3, h4, h5, h6, h7,
        except_bind_ok, except_bind_err]
    case pos =>
    by_cases h8 : isNumber o.nonce
    case neg =>
      simp [parseOptions, jsAssert, h1, h2, h3, h4, h5, h6, h7, h8,
        except_bind_ok, except_bind_err]
    case pos =>
      simp [parseOptionsChecks, h1, h2, h3, h4, h5, h6, h7, h8] at h
  · intro h
    simp only [parseOptionsChecks, Bool.and_eq_true] at h
    obtain ⟨⟨⟨⟨⟨⟨⟨h1, h2⟩, h3⟩, h4⟩, h5⟩, h6⟩, h7⟩, h8⟩ := h
    simp [parseOptions, jsAssert, h1, h2, h3, h4, h5, h6, h7, h8,
      except_bind_ok]

/-- C5 witness (amended): a failing options object is rejected with an
unnamed assertion error; a passing one is copied field-for-field,
including its unvalidated `undefined`/`NaN` members. -/
theorem c5_parseOptions_validation_witness :
    parseOptions jsInitBlock (some c5OptsBadNum) =
      .error (.assertionError none)
  ∧ parseOptions jsInitBlock (some c5OptsLoose) = .ok
      { version := c5OptsLoose.version
        prevHash := c5OptsLoose.prevHash
        merkleRoot := c5OptsLoose.merkleRoot
        hashMerkleRootWithData := c5OptsLoose.hashMerkleRootWithData
        hashMerkleRootWithPrevData := c5OptsLoose.hashMerkleRootWithPrevData
        time := c5OptsLoose.time
        bits := c5OptsLoose.bits
        nonce := c5OptsLoose.nonce
        outpointhash := c5OptsLoose.outpointhash
        outpointn := c5OptsLoose.outpointn
        blocksigsize := c5OptsLoose.blocksigsize
        blocksig := c5OptsLoose.blocksig
        mutable := jsInitBlock.mutable } :=
  ⟨(c5_parseOptions_validation jsInitBlock c5OptsBadNum).2.1 (by decide),
   (c5_parseOptions_validation jsInitBlock c5OptsLoose).2.2 (by decide)⟩

/-- C5 counterexample: the claim that construction validates the
primitive type and shape of *every* required field and otherwise fails
naming the violated field is false — options whose `prevHash` is the
non-hex string `"zz"` and whose `outpointhash` is `undefined` are
accepted wholesale, and the assertion that rejects a string `version`
carries no field name. -/
theorem c5_claim_counterexample :
    parseOptions jsInitBlock (some c5OptsLoose) = .ok
      { version := .num 1
        prevHash := .str "zz"
        merkleRoot := .str "00"
        hashMerkleRootWithData := .str NULL_HASH
        hashMerkleRootWithPrevData := .str NULL_HASH
        time := .num 0
        bits := .num 0
        nonce := .num 0
        outpointhash := .undefined
        outpointn := .undefined
        blocksigsize := .nan
        blocksig := .undefined
        mutable := false }
  ∧ isHex64 "zz" = false
  ∧ parseOptions jsInitBlock (some c5OptsBadNum) =
      .error (.assertionError none) := by
  refine ⟨by decide, by decide, by decide⟩

/-- C8: `parseJSON` never reads its `json` parameter — its body refers to
the unbound outer name `options` — so every call fails with a reference
error before assigning any field, whatever the argument, and the result
does not depend on the argument at all. -/
theorem c8_parseJSON_reference_error (st : JsBlock) (json : Option Options) :
    parseJSON st json = .error (.referenceError "options")
  ∧ ∀ json2, parseJSON st json = parseJSON st json2 :=
  ⟨rfl, fun _ => rfl⟩
